import Mathlib

/-!
# Verification of the MEG binary framing engine

Shallow embedding of the streaming framer, buffer manager and command
channel of the MEG acquisition system
(`core/meg_connection.py`, `core/n1_commander.py`, `backend/api/meg.py`).

Bytes are modelled as `Nat` (each wire byte is `< 256`); 32-bit
little-endian words are decoded explicitly.  Float32 payload values are
represented by their 32-bit little-endian words: the decoder never
interprets the payload numerically (`np.frombuffer` is a pure
reinterpretation), so this representation is faithful for all byte-level
claims.  IEEE special values (NaN/Inf), which drive the quality-score
branches, are modelled by an explicit extended-value type further below.
-/

namespace MEG

/-- ASCII bytes of the frame start / final marker `KCLB` (`K=75, C=67, L=76, B=66`). -/
def KCLB : List Nat := [75, 67, 76, 66]

/-- ASCII bytes of the payload end marker `DNEB` (`D=68, N=78, E=69, B=66`). -/
def DNEB : List Nat := [68, 78, 69, 66]

/-- Decode four bytes as a little-endian 32-bit word (`struct.unpack('<I', …)`).
Lists that do not have exactly four elements decode to `0`; every call site
in the embedding supplies exactly four bytes when the Python slice does. -/
def le32 : List Nat → Nat
  | [b0, b1, b2, b3] => b0 + 256 * (b1 + 256 * (b2 + 256 * b3))
  | _ => 0

/-- Encode a 32-bit word as four little-endian bytes (`struct.pack('<I', …)`). -/
def le32enc (n : Nat) : List Nat :=
  [n % 256, n / 256 % 256, n / 65536 % 256, n / 16777216 % 256]

/-- The little-endian 32-bit word stored at byte offset `i` of `buf`
(`struct.unpack('<I', buf[i:i+4])`). -/
def wordAt (buf : List Nat) (i : Nat) : Nat :=
  le32 ((buf.drop i).take 4)

/-- Group a byte list into consecutive little-endian 32-bit words
(`np.frombuffer(payload, dtype='<f4')`, with each float32 value represented
by its 32-bit word).  A trailing group of fewer than four bytes is dropped,
as `np.frombuffer` would reject it; the decoder only applies this to
16384-byte slices. -/
def toWords : List Nat → List Nat
  | b0 :: b1 :: b2 :: b3 :: rest => le32 [b0, b1, b2, b3] :: toWords rest
  | _ => []

/-! ## DataCodec: `EnhancedMEGConnection._parse_frame_at_position` -/

/-- `TOTAL_FRAME_SIZE`: fixed size of a data frame in bytes. -/
def TOTAL_FRAME_SIZE : Nat := 16416

/-- `PAYLOAD_SIZE`: payload bytes per data frame. -/
def PAYLOAD_SIZE : Nat := 16384

/-- `_parse_frame_at_position(buffer, position)`: decode and validate the
data frame at byte offset `position`.  Returns the payload reshaped to
16 × 256 words and sliced to the first 192 channels (`sensor_data[:, :192]`),
or `none` on any validation failure.  Checks, in source order: buffer long
enough; start marker `KCLB`; header words 2/3/4 equal to
`PAYLOAD_SIZE`/`n_sensors=64`/`sampling_rate=375`; 4096 payload words;
footer `DNEB` at 16404 and final `KCLB` at 16412 (the checksum word at
16408 is not verified). -/
def parseFrameAt (buffer : List Nat) (position : Nat) : Option (List (List Nat)) :=
  if position + TOTAL_FRAME_SIZE > buffer.length then none
  else
    let frameData := (buffer.drop position).take TOTAL_FRAME_SIZE
    if frameData.take 4 ≠ KCLB then none
    else
      let payload_size := wordAt frameData 8
      let n_sensors := wordAt frameData 12
      let acquisition_rate := wordAt frameData 16
      if ¬(payload_size = PAYLOAD_SIZE ∧ n_sensors = 64 ∧ acquisition_rate = 375) then none
      else
        let payloadData := (frameData.drop 20).take PAYLOAD_SIZE
        let floatArray := toWords payloadData
        if floatArray.length ≠ 4096 then none
        else
          let sensorData := (List.range 16).map (fun r => (floatArray.drop (256 * r)).take 256)
          let footerData := (frameData.drop 16404).take 12
          if footerData.length < 12 then none
          else if footerData.take 4 = DNEB ∧ (footerData.drop 8).take 4 = KCLB then
            some (sensorData.map (fun row => row.take 192))
          else none

/-- The 16 × 192 word matrix a valid frame decodes to: payload words reshaped
to 16 rows of 256 and sliced to the first 192 channels. -/
def reshape192 (payloadBytes : List Nat) : List (List Nat) :=
  (List.range 16).map (fun r => ((toWords payloadBytes).drop (256 * r)).take 256 |>.take 192)

/-- Modelled from the spec: the repository has no frame encoder under
`src/`; this synthetic data-frame constructor follows §8 scenario 1 of the
specification (`KCLB | frame_number | 16384 | 64 | 375 | payload | DNEB |
checksum | KCLB`), for round-trip statements against the source decoder. -/
def mkFrame (frameNumber : Nat) (payload : List Nat) (checksum : Nat) : List Nat :=
  KCLB ++ le32enc frameNumber ++ le32enc PAYLOAD_SIZE ++ le32enc 64 ++ le32enc 375 ++
    payload ++ DNEB ++ le32enc checksum ++ KCLB

/-! ## Resynchronization: `_find_next_sync_position` (data stream) -/

/-- The condition checked by the validated scan at offset `i`: a `KCLB`
start marker followed by a header whose words 2/3/4 equal
`PAYLOAD_SIZE`/`64`/`375` (`header_values[2..4]` of
`struct.unpack('<5I', frame_buffer[i:i+20])`). -/
def syncCandidate (buf : List Nat) (i : Nat) : Bool :=
  decide ((buf.drop i).take 4 = KCLB) &&
    decide (wordAt buf (i + 8) = PAYLOAD_SIZE) &&
    decide (wordAt buf (i + 12) = 64) &&
    decide (wordAt buf (i + 16) = 375)

/-- `_find_next_sync_position()`: scan offsets `i ∈ range(1, len - 20)`
(that is, `1 ≤ i ≤ len - 21`) for the first validated sync candidate;
return that offset, or `0` if the scan finds none. -/
def findNextSyncPosition (buf : List Nat) : Nat :=
  match (List.range' 1 (buf.length - 21)).find? (fun i => syncCandidate buf i) with
  | some i => i
  | none => 0

/-- The resynchronization step of `_process_frame_buffer` after a failed
decode at offset 0: advance the accumulator to the found sync position and
count one sync loss, or leave both unchanged when no position was found. -/
def dataResyncStep (buf : List Nat) (syncLosses : Nat) : List Nat × Nat :=
  let syncPos := findNextSyncPosition buf
  if syncPos > 0 then (buf.drop syncPos, syncLosses + 1) else (buf, syncLosses)

/-! ## StatusCodec: `MEGSensorStatusConnection._process_status_frame_buffer`

One iteration of the status-frame processing loop.  Wall-clock timestamps
and the lossy UTF-8 decode of the 300-byte text region are outside the
byte-level embedding: the text region is kept as its raw bytes. -/

/-- A parsed sensor-status frame (`SensorStatus` dataclass, byte-level
fields). `parsedSensorStatuses` lists the per-sensor four-byte records
`[ACT, LLS, SLS, FLS]` in sensor-index order. -/
structure SensorStatusRec where
  frameNumber : Nat
  payloadSizeFromHeaderField : Nat
  numSensors : Nat
  actualPayloadSizeForStatus : Nat
  statusStringBytes : List Nat
  statusValuesBytes : List Nat
  parsedSensorStatuses : List (List Nat)
deriving DecidableEq, Repr

/-- The sensor-record loop `for i in range(64)` over the 300-byte value
region: collect `status_values_bytes[4*i : 4*i+4]` for consecutive `i`,
stopping (`break`) at the first sensor whose four bytes are not fully
present.  `fuel` counts the loop iterations left (the loop is entered with
`fuel = 64`, matching `range(64)`; the `i < 64` bound is kept explicitly as
in the source). -/
def sensorStatusGo (svb : List Nat) (i : Nat) : Nat → List (List Nat)
  | 0 => []
  | fuel + 1 =>
    if i < 64 then
      if 4 * i + 4 ≤ svb.length then
        ((svb.drop (4 * i)).take 4) :: sensorStatusGo svb (i + 1) fuel
      else []
    else []

/-- One iteration of the status processing loop can wait for more input,
parse a frame (returning it with the advanced buffer), or fail and resync
(returning the advanced buffer and the number of bytes discarded). -/
inductive StatusStepResult where
  | needMoreData (buf : List Nat)
  | parsed (rec : SensorStatusRec) (buf : List Nat)
  | resync (buf : List Nat) (discarded : Nat)
deriving DecidableEq, Repr

/-- `bytes.find(FRAME_START_MARKER, 1)`: the smallest offset `≥ 1` where the
four bytes `KCLB` occur in `buf`, if any. -/
def statusFindSync (buf : List Nat) : Option Nat :=
  (List.range' 1 buf.length).find? (fun i => decide ((buf.drop i).take 4 = KCLB))

/-- One iteration of `_process_status_frame_buffer`: read the 20-byte
header, compute the full frame size from header word 2
(`declared_payload_size`), and either wait for more data, parse the frame
(validating start marker, `n_sensors == 64`, and the two footer markers —
header word 4, the `effective_status_size`, is stored but not validated),
or, on a validation failure, resync the buffer to the next bare `KCLB`
occurrence (clearing it when none exists). -/
def statusStep (buf : List Nat) : StatusStepResult :=
  if buf.length < 20 then .needMoreData buf
  else
    let frameNumber := wordAt buf 4
    let payloadSizeFromHeaderField := wordAt buf 8
    let numSensorsInFrame := wordAt buf 12
    let actualPayloadSizeForStatus := wordAt buf 16
    let fullFrameSize := 20 + payloadSizeFromHeaderField + 12
    if buf.length < fullFrameSize then .needMoreData buf
    else
      let frameData := buf.take fullFrameSize
      let payloadBytes := (frameData.drop 20).take payloadSizeFromHeaderField
      let footerData := (frameData.drop (20 + payloadSizeFromHeaderField)).take 12
      if frameData.take 4 = KCLB ∧ numSensorsInFrame = 64 ∧
          footerData.take 4 = DNEB ∧ (footerData.drop 8).take 4 = KCLB then
        let statusStringBytes := payloadBytes.take 300
        let statusValuesBytes := (payloadBytes.drop 300).take 300
        .parsed
          { frameNumber := frameNumber
            payloadSizeFromHeaderField := payloadSizeFromHeaderField
            numSensors := numSensorsInFrame
            actualPayloadSizeForStatus := actualPayloadSizeForStatus
            statusStringBytes := statusStringBytes
            statusValuesBytes := statusValuesBytes
            parsedSensorStatuses := sensorStatusGo statusValuesBytes 0 64 }
          (buf.drop fullFrameSize)
      else
        match statusFindSync buf with
        | some i => .resync (buf.drop i) i
        | none => .resync [] 0

/-- Whether one status iteration parses a frame. -/
def statusParses (buf : List Nat) : Bool :=
  match statusStep buf with
  | .parsed _ _ => true
  | _ => false

/-- Number of sensor records emitted by a parsing status iteration
(`0` when the iteration does not parse). -/
def statusRecordCount (buf : List Nat) : Nat :=
  match statusStep buf with
  | .parsed r _ => r.parsedSensorStatuses.length
  | _ => 0

/-- The accumulator contents after a failing status iteration resyncs. -/
def statusResyncTarget (buf : List Nat) : Option (List Nat) :=
  match statusStep buf with
  | .resync b _ => some b
  | _ => none

/-! ## Quality score: `_calculate_frame_quality`

The payload values feeding the quality score are IEEE floats; the branch
structure of `_calculate_frame_quality` is driven by NaN/Inf propagation
and by comparisons (every comparison with NaN is false).  Values are
modelled as exact rationals extended with signed infinities and NaN, and
`np.mean` / `np.var` by their defining formulas with IEEE special-value
rules; finite arithmetic is exact (float rounding does not affect any
branch decision stated about this model). -/

/-- An IEEE-style extended value: a finite rational, a signed infinity, or NaN. -/
inductive FVal where
  | fin (q : ℚ)
  | inf (pos : Bool)
  | nan
deriving DecidableEq, Repr

/-- IEEE addition on extended values: NaN is absorbing and `(+∞) + (-∞) = NaN`. -/
def fadd : FVal → FVal → FVal
  | .nan, _ => .nan
  | _, .nan => .nan
  | .fin a, .fin b => .fin (a + b)
  | .fin _, .inf p => .inf p
  | .inf p, .fin _ => .inf p
  | .inf p, .inf q => if p = q then .inf p else .nan

/-- IEEE negation on extended values. -/
def fneg : FVal → FVal
  | .fin a => .fin (-a)
  | .inf p => .inf (!p)
  | .nan => .nan

/-- IEEE subtraction: `a - b = a + (-b)`; in particular `∞ - ∞ = NaN`. -/
def fsub (a b : FVal) : FVal := fadd a (fneg b)

/-- IEEE multiplication: NaN absorbing, `0 × ∞ = NaN`, signs multiply. -/
def fmul : FVal → FVal → FVal
  | .nan, _ => .nan
  | _, .nan => .nan
  | .fin a, .fin b => .fin (a * b)
  | .fin a, .inf p => if a = 0 then .nan else .inf (p = decide (0 < a))
  | .inf p, .fin a => if a = 0 then .nan else .inf (p = decide (0 < a))
  | .inf p, .inf q => .inf (p = q)

/-- Division of an extended value by a natural count (the `/ n` of a mean);
division by zero yields NaN, matching `np.mean` of an empty array. -/
def fdivNat : FVal → Nat → FVal
  | _, 0 => .nan
  | .fin a, n => .fin (a / (n : ℚ))
  | .inf p, _ => .inf p
  | .nan, _ => .nan

/-- IEEE absolute value. -/
def fabs : FVal → FVal
  | .fin a => .fin |a|
  | .inf _ => .inf true
  | .nan => .nan

/-- IEEE strict less-than: false whenever either operand is NaN. -/
def flt : FVal → FVal → Bool
  | .nan, _ => false
  | _, .nan => false
  | .fin a, .fin b => decide (a < b)
  | .fin _, .inf p => p
  | .inf p, .fin _ => !p
  | .inf p, .inf q => !p && q

/-- `np.isnan` on an extended value. -/
def isNan : FVal → Bool
  | .nan => true
  | _ => false

/-- `np.isinf` on an extended value. -/
def isInf : FVal → Bool
  | .inf _ => true
  | _ => false

/-- Sum of a list of extended values (left fold from `0`, as a sequential
accumulation; NaN generation from mixed infinities is order-independent). -/
def fsum (xs : List FVal) : FVal := xs.foldl fadd (.fin 0)

/-- `np.mean`: sum divided by the element count. -/
def fmean (xs : List FVal) : FVal := fdivNat (fsum xs) xs.length

/-- `np.var`: mean of the squared deviations from the mean. -/
def fvar (xs : List FVal) : FVal :=
  fmean (xs.map (fun x => fmul (fsub x (fmean xs)) (fsub x (fmean xs))))

/-- `_calculate_frame_quality(frame_data)`, in source order: variance and
absolute mean are computed first; then `variance < 1e-10 → 0.1`,
`variance > 1e6 → 0.3`, `|mean| > 1e3 → 0.5`, `any NaN or Inf → 0.0`,
otherwise `1.0`.  The threshold literals are taken at their exact decimal
values. -/
def calculateFrameQuality (xs : List FVal) : ℚ :=
  let signalVariance := fvar xs
  let signalMean := fabs (fmean xs)
  if flt signalVariance (.fin (1 / 10 ^ 10)) then 1 / 10
  else if flt (.fin (10 ^ 6)) signalVariance then 3 / 10
  else if flt (.fin (10 ^ 3)) signalMean then 1 / 2
  else if xs.any isNan || xs.any isInf then 0
  else 1

/-- The quality score as the specification sentence orders the checks
(refinement reference, written from the spec's words, for comparison with
`calculateFrameQuality`): NaN/Inf anywhere → 0.0 first, then the variance
and mean thresholds. -/
def specFrameQuality (xs : List FVal) : ℚ :=
  if xs.any isNan || xs.any isInf then 0
  else if flt (fvar xs) (.fin (1 / 10 ^ 10)) then 1 / 10
  else if flt (.fin (10 ^ 6)) (fvar xs) then 3 / 10
  else if flt (.fin (10 ^ 3)) (fabs (fmean xs)) then 1 / 2
  else 1

/-! ## Queue fan-out: `_distribute_frame_data`

The bounded queues are modelled as lists (head = oldest element), with
`queue.Queue.put_nowait` / `get_nowait` as their single-threaded
semantics; elements are left abstract (the queue logic never inspects a
frame). -/

/-- `Queue(maxsize).put_nowait(x)`: append, or fail (`queue.Full`) when the
queue already holds `maxsize` elements. -/
def putNowait {α : Type} (maxsize : Nat) (q : List α) (x : α) : Option (List α) :=
  if q.length < maxsize then some (q ++ [x]) else none

/-- `Queue.get_nowait()`: remove and return the oldest element, or fail
(`queue.Empty`) when the queue is empty. -/
def getNowait {α : Type} : List α → Option (α × List α)
  | [] => none
  | y :: ys => some (y, ys)

/-- The main-data-queue branch of `_distribute_frame_data`: enqueue only
when `qsize() < 900` ("keep some space"); the `except queue.Full` handler
(drop oldest, retry) is reproduced verbatim below it. -/
def dataQueuePut {α : Type} (q : List α) (f : α) : List α :=
  if q.length < 900 then
    match putNowait 1000 q f with
    | some q2 => q2
    | none =>
      match getNowait q with
      | some (_, q2) =>
        match putNowait 1000 q2 f with
        | some q3 => q3
        | none => q2
      | none => q
  else q

/-- The prediction-queue enqueue of `_distribute_frame_data`: enqueue only
when `qsize() < 190`, with the same `except queue.Full` handler shape. -/
def predQueuePut {α : Type} (q : List α) (f : α) : List α :=
  if q.length < 190 then
    match putNowait 200 q f with
    | some q2 => q2
    | none =>
      match getNowait q with
      | some (_, q2) =>
        match putNowait 200 q2 f with
        | some q3 => q3
        | none => q2
      | none => q
  else q

/-- The prediction-collection branch of `_distribute_frame_data`: when
collection is active, a frame is enqueued only if
`elapsed ≤ prediction_duration`; otherwise `prediction_active` is cleared
and the frame is not enqueued.  Returns the new `prediction_active` flag
and queue. -/
def predictionDispatch {α : Type} (active : Bool) (elapsed duration : ℚ)
    (q : List α) (f : α) : Bool × List α :=
  if active then
    if elapsed ≤ duration then (active, predQueuePut q f)
    else (false, q)
  else (active, q)

/-! ## Consumer reads: `get_monitor_data`, `get_latest_buffer_data`,
`get_prediction_data`

Single-threaded semantics: a blocking `get(timeout=…)` on an empty queue
with no producer raises `queue.Empty` after the timeout.  Frame payloads
are row lists (each row a channel list); `np.vstack` is list join. -/

/-- `ConnectionState`: the lifecycle states of a session. -/
inductive ConnState where
  | disconnected
  | connecting
  | connected
  | streaming
  | error
deriving DecidableEq, Repr

/-- The consumer-visible slice of an `EnhancedMEGConnection`: its lifecycle
state and the three data stores the read operations touch. -/
structure DataSessionView where
  state : ConnState
  monitorQueue : List (List (List Nat))
  rawBuffer : List (List Nat)
  predictionQueue : List (List (List Nat))
deriving DecidableEq, Repr

/-- The collection loop of `get_monitor_data`: `while not empty and
samples_collected < max_samples: get_nowait`, accumulating frame row
counts. -/
def collectMonitor : List (List (List Nat)) → Nat → Nat → List (List (List Nat))
  | [], _, _ => []
  | f :: rest, samples, maxSamples =>
    if samples < maxSamples then f :: collectMonitor rest (samples + f.length) maxSamples
    else []

/-- `get_monitor_data(max_samples)`: `None` when the monitor queue is empty
(the brief blocking wait expires); otherwise the vertical concatenation of
the frames drained while under `max_samples`, or `None` when that
collection is empty.  The lifecycle state is never consulted. -/
def getMonitorData (s : DataSessionView) (maxSamples : Nat) : Option (List (List Nat)) :=
  match s.monitorQueue with
  | [] => none
  | q =>
    let frames := collectMonitor q 0 maxSamples
    if frames.isEmpty then none else some frames.flatten

/-- `get_latest_buffer_data(n_samples)`: the last `n` rows of the raw
circular buffer, or `None` when it holds fewer than `n`.  The lifecycle
state is never consulted. -/
def getLatestBufferData (s : DataSessionView) (n : Nat) : Option (List (List Nat)) :=
  if s.rawBuffer.length < n then none
  else some (s.rawBuffer.drop (s.rawBuffer.length - n))

/-- `get_prediction_data()`: clear `prediction_active`, drain the entire
prediction queue, and return the concatenation (or `None` when nothing was
collected).  The lifecycle state is never consulted. -/
def getPredictionData (s : DataSessionView) : Option (List (List Nat)) × DataSessionView :=
  let frames := s.predictionQueue
  (if frames.isEmpty then none else some frames.flatten,
   { s with predictionQueue := [] })

/-! ## Receiver loop: `_high_performance_stream` + `_process_frame_buffer`

The receiver thread is modelled as a fold over the sequence of outcomes of
its `socket.recv` calls.  `_set_state` transitions are recorded in a log
(the notifications status observers receive).  The socket is closed only
by `disconnect()`, and `running` is cleared only by `disconnect()`: both
are outside this loop, so the model carries them as fields the loop never
writes. -/

/-- Outcome of one `socket.recv` poll: a byte chunk, an empty read
(`recv` returned `b''`), a `socket.timeout`, or another exception. -/
inductive RecvResult where
  | chunk (data : List Nat)
  | emptyRead
  | timedOut
  | exn
deriving DecidableEq, Repr

/-- The receiver-visible state of an `EnhancedMEGConnection`. -/
structure StreamState where
  running : Bool
  connState : ConnState
  stateLog : List ConnState
  consecutiveEmpty : Nat
  consecutiveErrors : Nat
  frameBuffer : List Nat
  totalBytesReceived : Nat
  totalFramesParsed : Nat
  syncLosses : Nat
  socketOpen : Bool
deriving DecidableEq, Repr

/-- `_set_state(new_state)`: update the state and notify observers (append
to the log) only when it changes. -/
def setState (st : StreamState) (s : ConnState) : StreamState :=
  if st.connState ≠ s then { st with connState := s, stateLog := st.stateLog ++ [s] }
  else st

/-- The drain loop of `_process_frame_buffer`: while the accumulator holds
a full frame and fewer than 10 frames were parsed this cycle, decode at
offset 0; on success drop `TOTAL_FRAME_SIZE` bytes, count the frame and
reset `consecutive_errors`; on failure advance to the validated sync
position and count a sync loss, or stop when no sync position was found. -/
def processFramesLoop (st : StreamState) (framesProcessed : Nat) : StreamState :=
  if h : TOTAL_FRAME_SIZE ≤ st.frameBuffer.length ∧ framesProcessed < 10 then
    match parseFrameAt st.frameBuffer 0 with
    | some _ =>
      processFramesLoop
        { st with frameBuffer := st.frameBuffer.drop TOTAL_FRAME_SIZE
                  totalFramesParsed := st.totalFramesParsed + 1
                  consecutiveErrors := 0 }
        (framesProcessed + 1)
    | none =>
      let syncPos := findNextSyncPosition st.frameBuffer
      if hp : syncPos > 0 then
        processFramesLoop
          { st with frameBuffer := st.frameBuffer.drop syncPos
                    syncLosses := st.syncLosses + 1 }
          framesProcessed
      else st
  else st
termination_by st.frameBuffer.length
decreasing_by
  · have h16 := h.1
    simp only [TOTAL_FRAME_SIZE] at h16 ⊢
    simp only [List.length_drop]
    omega
  · have h16 := h.1
    simp only [TOTAL_FRAME_SIZE] at h16
    simp only [List.length_drop]
    omega

/-- `_process_frame_buffer()`: the drain loop followed by the accumulator
size cap (right-truncate to the last 50 000 bytes when over 100 000). -/
def processFrameBuffer (st : StreamState) : StreamState :=
  let st2 := processFramesLoop st 0
  if st2.frameBuffer.length > 100000 then
    { st2 with frameBuffer := st2.frameBuffer.drop (st2.frameBuffer.length - 50000) }
  else st2

/-- One iteration of the receiver `while` body, given the poll outcome.
Returns the new state and whether the loop `break`s: an empty read
increments `consecutive_empty_reads` and, strictly above 50, transitions
to `error` and breaks; a chunk resets that counter, accounts the bytes,
appends to the accumulator and drains frames; a timeout `continue`s; any
other exception increments `consecutive_errors` and, strictly above 10,
transitions to `error` and breaks. -/
def pollStep (st : StreamState) (r : RecvResult) : StreamState × Bool :=
  match r with
  | .emptyRead =>
    let st2 := { st with consecutiveEmpty := st.consecutiveEmpty + 1 }
    if st2.consecutiveEmpty > 50 then (setState st2 .error, true) else (st2, false)
  | .chunk d =>
    let st2 := { st with consecutiveEmpty := 0
                         totalBytesReceived := st.totalBytesReceived + d.length
                         frameBuffer := st.frameBuffer ++ d }
    (processFrameBuffer st2, false)
  | .timedOut => (st, false)
  | .exn =>
    let st2 := { st with consecutiveErrors := st.consecutiveErrors + 1 }
    if st2.consecutiveErrors > 10 then (setState st2 .error, true) else (st2, false)

/-- Whether the receiver `while` condition holds: `running` and the state
is `connected` or `streaming`. -/
def receiverLive (st : StreamState) : Bool :=
  st.running && (st.connState = ConnState.connected || st.connState = ConnState.streaming)

/-- The unconditional `_set_state(DISCONNECTED)` after the receiver loop
exits. -/
def finishReceiver (st : StreamState) : StreamState :=
  setState st .disconnected

/-- Run the receiver loop over a finite sequence of poll outcomes.
Returns the state together with the polls not consumed: when the loop
exits (condition false or `break`), the trailing `_set_state(DISCONNECTED)`
runs and the remaining polls are returned unprocessed; when the polls run
out with the loop still live, the current state is returned (the thread is
still blocked in `recv`). -/
def runReceiver : List RecvResult → StreamState → StreamState × List RecvResult
  | polls, st =>
    if receiverLive st then
      match polls with
      | [] => (st, [])
      | p :: rest =>
        match pollStep st p with
        | (st2, true) => (finishReceiver st2, rest)
        | (st2, false) => runReceiver rest st2
    else (finishReceiver st, polls)

/-- A freshly streaming session, as `connect_and_stream` leaves it after
`_reset_performance_counters` (log restarted at the point streaming
begins). -/
def initStreaming : StreamState :=
  { running := true
    connState := .streaming
    stateLog := []
    consecutiveEmpty := 0
    consecutiveErrors := 0
    frameBuffer := []
    totalBytesReceived := 0
    totalFramesParsed := 0
    syncLosses := 0
    socketOpen := true }

/-! ## Commander: `N1Commander.send_command` -/

/-- The pipe-delimited command payload: `f"{component}|{command}"`, with
`"|param"` appended for each non-empty parameter (Python truthiness of a
string). -/
def commandPayload (component command param1 param2 : String) : String :=
  let p := component ++ "|" ++ command
  let p2 := if param1 ≠ "" then p ++ "|" ++ param1 else p
  if param2 ≠ "" then p2 ++ "|" ++ param2 else p2

/-- UTF-8 encoding of one character (code point → 1–4 bytes), as
`str.encode('utf-8')` produces it. -/
def utf8EncodeChar (c : Char) : List Nat :=
  let n := c.toNat
  if n < 128 then [n]
  else if n < 2048 then [192 + n / 64, 128 + n % 64]
  else if n < 65536 then [224 + n / 4096, 128 + n / 64 % 64, 128 + n % 64]
  else [240 + n / 262144, 128 + n / 4096 % 64, 128 + n / 64 % 64, 128 + n % 64]

/-- UTF-8 encoding of a string (`payload_str.encode('utf-8')`). -/
def utf8Encode (s : String) : List Nat :=
  s.data.flatMap utf8EncodeChar

/-- The wire bytes `send_command` writes: `struct.pack('<I', payload_size)`
followed by the UTF-8 payload. -/
def sendCommandBytes (component command param1 param2 : String) : List Nat :=
  let payload := utf8Encode (commandPayload component command param1 param2)
  le32enc payload.length ++ payload

/-! ## Connection test: `test_connection_async` frame scan -/

/-- The frame-counting scan of `test_connection_async`: starting at offset
0, while `buffer_pos < len(all_data) - TOTAL_FRAME_SIZE` (strict), count a
decoded frame and advance by `TOTAL_FRAME_SIZE`, or advance by one byte. -/
def scanFrames (allData : List Nat) (pos : Nat) : Nat :=
  if h : pos < allData.length - TOTAL_FRAME_SIZE then
    match parseFrameAt allData pos with
    | some _ => 1 + scanFrames allData (pos + TOTAL_FRAME_SIZE)
    | none => scanFrames allData (pos + 1)
  else 0
termination_by allData.length - pos
decreasing_by
  · simp only [TOTAL_FRAME_SIZE] at h ⊢
    omega
  · simp only [TOTAL_FRAME_SIZE] at h
    omega

/-- `frames_found` as `test_connection_async` computes it from the captured
bytes: the scan runs only when at least one full frame's worth of bytes was
captured. -/
def testFramesFound (allData : List Nat) : Nat :=
  if TOTAL_FRAME_SIZE ≤ allData.length then scanFrames allData 0 else 0

/-! ## Shared helper lemmas -/

/-- A word grouping of `n` bytes yields `n / 4` words. -/
theorem toWords_length : ∀ l : List Nat, (toWords l).length = l.length / 4
  | _ :: _ :: _ :: _ :: rest => by
    simp only [toWords, List.length_cons, toWords_length rest]
    omega
  | [] => by simp [toWords]
  | [_] => by simp [toWords]
  | [_, _] => by simp [toWords]
  | [_, _, _] => by simp [toWords]

/-- `le32` inverts `le32enc` on 32-bit words. -/
theorem le32_le32enc (n : Nat) (h : n < 4294967296) : le32 (le32enc n) = n := by
  simp only [le32enc, le32]
  omega

/-- A successful `find?` over `range' s n` returns the smallest offset in
the range satisfying the predicate: all smaller offsets `≥ s` fail. -/
theorem find?_range'_first {p : Nat → Bool} :
    ∀ {n s i : Nat}, (List.range' s n).find? p = some i →
      ∀ j, s ≤ j → j < i → p j = false := by
  intro n
  induction n with
  | zero => intro s i h; simp [List.range'] at h
  | succ n ih =>
    intro s i h j hj1 hj2
    rw [List.range'_succ] at h
    by_cases hs : p s
    · rw [List.find?_cons_of_pos _ hs] at h
      have : i = s := by injection h with h'; omega
      omega
    · rw [List.find?_cons_of_neg _ hs] at h
      rcases Nat.eq_or_lt_of_le hj1 with rfl | hlt
      · exact Bool.eq_false_iff.mpr hs
      · exact ih h j hlt hj2

/-- If some offset in `range' s n` satisfies the predicate, `find?` succeeds. -/
theorem find?_range'_isSome {p : Nat → Bool} {s n i : Nat}
    (hi : s ≤ i) (hn : i < s + n) (hp : p i = true) :
    ∃ j, (List.range' s n).find? p = some j := by
  cases hfind : (List.range' s n).find? p with
  | some j => exact ⟨j, rfl⟩
  | none =>
    rw [List.find?_eq_none] at hfind
    exact absurd hp (by simpa using hfind i (List.mem_range'_1.mpr ⟨hi, hn⟩))

/-- `mkFrame` reassociated as header ++ (payload ++ footer). -/
theorem mkFrame_split (n c : Nat) (payload : List Nat) :
    mkFrame n payload c
      = (KCLB ++ le32enc n ++ le32enc PAYLOAD_SIZE ++ le32enc 64 ++ le32enc 375)
        ++ (payload ++ (DNEB ++ le32enc c ++ KCLB)) := by
  simp [mkFrame, List.append_assoc]

/-- A synthetic frame is its payload plus 32 bytes of header and footer. -/
theorem mkFrame_length (n c : Nat) (payload : List Nat) :
    (mkFrame n payload c).length = 32 + payload.length := by
  simp [mkFrame, List.length_append, KCLB, DNEB, le32enc]
  omega

/-- A synthetic frame starts with the `KCLB` marker. -/
theorem mkFrame_take4 (n c : Nat) (payload : List Nat) :
    (mkFrame n payload c).take 4 = KCLB := by
  rw [mkFrame_split]
  rw [show (KCLB ++ le32enc n ++ le32enc PAYLOAD_SIZE ++ le32enc 64 ++ le32enc 375)
        ++ (payload ++ (DNEB ++ le32enc c ++ KCLB))
      = KCLB ++ (le32enc n ++ le32enc PAYLOAD_SIZE ++ le32enc 64 ++ le32enc 375
        ++ (payload ++ (DNEB ++ le32enc c ++ KCLB))) from by simp [List.append_assoc]]
  exact List.take_left' rfl

/-- Header word 2 of a synthetic frame is the payload size constant. -/
theorem mkFrame_word8 (n c : Nat) (payload : List Nat) :
    wordAt (mkFrame n payload c) 8 = PAYLOAD_SIZE := by
  rw [wordAt, mkFrame_split]
  rw [show (KCLB ++ le32enc n ++ le32enc PAYLOAD_SIZE ++ le32enc 64 ++ le32enc 375)
        ++ (payload ++ (DNEB ++ le32enc c ++ KCLB))
      = (KCLB ++ le32enc n) ++ (le32enc PAYLOAD_SIZE
        ++ (le32enc 64 ++ le32enc 375 ++ (payload ++ (DNEB ++ le32enc c ++ KCLB))))
      from by simp [List.append_assoc]]
  rw [List.drop_left' (by simp [KCLB, le32enc])]
  rw [List.take_left' (show (le32enc PAYLOAD_SIZE).length = 4 from rfl)]
  exact le32_le32enc _ (by norm_num [PAYLOAD_SIZE])

/-- Header word 3 of a synthetic frame is the sensor count 64. -/
theorem mkFrame_word12 (n c : Nat) (payload : List Nat) :
    wordAt (mkFrame n payload c) 12 = 64 := by
  rw [wordAt, mkFrame_split]
  rw [show (KCLB ++ le32enc n ++ le32enc PAYLOAD_SIZE ++ le32enc 64 ++ le32enc 375)
        ++ (payload ++ (DNEB ++ le32enc c ++ KCLB))
      = (KCLB ++ le32enc n ++ le32enc PAYLOAD_SIZE) ++ (le32enc 64
        ++ (le32enc 375 ++ (payload ++ (DNEB ++ le32enc c ++ KCLB))))
      from by simp [List.append_assoc]]
  rw [List.drop_left' (by simp [KCLB, le32enc])]
  rw [List.take_left' (show (le32enc (64 : Nat)).length = 4 from rfl)]
  exact le32_le32enc _ (by norm_num)

/-- Header word 4 of a synthetic frame is the sampling rate 375. -/
theorem mkFrame_word16 (n c : Nat) (payload : List Nat) :
    wordAt (mkFrame n payload c) 16 = 375 := by
  rw [wordAt, mkFrame_split]
  rw [show (KCLB ++ le32enc n ++ le32enc PAYLOAD_SIZE ++ le32enc 64 ++ le32enc 375)
        ++ (payload ++ (DNEB ++ le32enc c ++ KCLB))
      = (KCLB ++ le32enc n ++ le32enc PAYLOAD_SIZE ++ le32enc 64) ++ (le32enc 375
        ++ (payload ++ (DNEB ++ le32enc c ++ KCLB)))
      from by simp [List.append_assoc]]
  rw [List.drop_left' (by simp [KCLB, le32enc])]
  rw [List.take_left' (show (le32enc (375 : Nat)).length = 4 from rfl)]
  exact le32_le32enc _ (by norm_num)

/-- Dropping the 20-byte header of a synthetic frame leaves payload and footer. -/
theorem mkFrame_drop20 (n c : Nat) (payload : List Nat) :
    (mkFrame n payload c).drop 20 = payload ++ (DNEB ++ le32enc c ++ KCLB) := by
  rw [mkFrame_split]
  exact List.drop_left' (by simp [KCLB, le32enc])

/-- The footer of a full-size synthetic frame starts at byte 16404. -/
theorem mkFrame_drop16404 (n c : Nat) (payload : List Nat)
    (hlen : payload.length = PAYLOAD_SIZE) :
    (mkFrame n payload c).drop 16404 = DNEB ++ le32enc c ++ KCLB := by
  rw [mkFrame_split]
  rw [show (KCLB ++ le32enc n ++ le32enc PAYLOAD_SIZE ++ le32enc 64 ++ le32enc 375)
        ++ (payload ++ (DNEB ++ le32enc c ++ KCLB))
      = ((KCLB ++ le32enc n ++ le32enc PAYLOAD_SIZE ++ le32enc 64 ++ le32enc 375) ++ payload)
        ++ (DNEB ++ le32enc c ++ KCLB) from by simp [List.append_assoc]]
  exact List.drop_left' (by simp [List.length_append, KCLB, le32enc, hlen, PAYLOAD_SIZE])

/-- The payload-end marker of a full-size synthetic frame. -/
theorem mkFrame_end1 (n c : Nat) (payload : List Nat)
    (hlen : payload.length = PAYLOAD_SIZE) :
    ((mkFrame n payload c).drop 16404).take 4 = DNEB := by
  rw [mkFrame_drop16404 n c payload hlen]
  rw [show DNEB ++ le32enc c ++ KCLB = DNEB ++ (le32enc c ++ KCLB) from by
    simp [List.append_assoc]]
  exact List.take_left' rfl

/-- The final marker of a full-size synthetic frame. -/
theorem mkFrame_end2 (n c : Nat) (payload : List Nat)
    (hlen : payload.length = PAYLOAD_SIZE) :
    ((mkFrame n payload c).drop 16412).take 4 = KCLB := by
  have h : (mkFrame n payload c).drop 16412 = ((mkFrame n payload c).drop 16404).drop 8 := by
    rw [List.drop_drop]
  rw [h, mkFrame_drop16404 n c payload hlen]
  rw [show DNEB ++ le32enc c ++ KCLB = (DNEB ++ le32enc c) ++ KCLB from by
    simp [List.append_assoc]]
  rw [List.drop_left' (by simp [DNEB, le32enc])]
  exact List.take_of_length_le (by simp [KCLB])

/-- A full-size synthetic frame has exactly `TOTAL_FRAME_SIZE` bytes. -/
theorem mkFrame_total (n c : Nat) (payload : List Nat)
    (hlen : payload.length = PAYLOAD_SIZE) :
    (mkFrame n payload c).length = TOTAL_FRAME_SIZE := by
  rw [mkFrame_length, hlen]
  rfl

/-- A decode attempt at offset 0 fails as soon as the first four bytes are
not the start marker. -/
theorem parseFrameAt_none_of_badStart (buf : List Nat) (h : buf.take 4 ≠ KCLB) :
    parseFrameAt buf 0 = none := by
  rw [parseFrameAt]
  by_cases hl : 0 + TOTAL_FRAME_SIZE > buf.length
  · rw [if_pos hl]
  · rw [if_neg hl]
    have ht : ((buf.drop 0).take TOTAL_FRAME_SIZE).take 4 = buf.take 4 := by
      rw [List.drop_zero, List.take_take]
      norm_num [TOTAL_FRAME_SIZE]
    rw [if_pos (by rw [ht]; exact h)]

/-- Decoding a valid synthetic frame: the parse succeeds and returns the
payload reshaped to 16 × 256 words and sliced to the first 192 channels. -/
theorem parse_mkFrame (n c : Nat) (payload : List Nat)
    (hlen : payload.length = PAYLOAD_SIZE) :
    parseFrameAt (mkFrame n payload c) 0 = some (reshape192 payload) := by
  have htot := mkFrame_total n c payload hlen
  rw [parseFrameAt]
  rw [if_neg (by rw [htot]; simp)]
  have hdt : ((mkFrame n payload c).drop 0).take TOTAL_FRAME_SIZE = mkFrame n payload c := by
    rw [List.drop_zero, List.take_of_length_le (le_of_eq htot)]
  rw [hdt]
  rw [if_neg (by simp [mkFrame_take4])]
  rw [if_neg (by simp [mkFrame_word8, mkFrame_word12, mkFrame_word16])]
  have hpayl : ((mkFrame n payload c).drop 20).take PAYLOAD_SIZE = payload := by
    rw [mkFrame_drop20]
    exact List.take_left' hlen
  rw [hpayl]
  rw [if_neg (by rw [toWords_length, hlen]; simp [PAYLOAD_SIZE])]
  have hfoot : ((mkFrame n payload c).drop 16404).take 12 = DNEB ++ le32enc c ++ KCLB := by
    rw [mkFrame_drop16404 n c payload hlen]
    exact List.take_of_length_le (by simp [List.length_append, DNEB, KCLB, le32enc])
  rw [hfoot]
  rw [if_neg (by simp [List.length_append, DNEB, KCLB, le32enc])]
  have hf1 : (DNEB ++ le32enc c ++ KCLB).take 4 = DNEB := by
    rw [show DNEB ++ le32enc c ++ KCLB = DNEB ++ (le32enc c ++ KCLB) from by
      simp [List.append_assoc]]
    exact List.take_left' rfl
  have hf2 : ((DNEB ++ le32enc c ++ KCLB).drop 8).take 4 = KCLB := by
    rw [show DNEB ++ le32enc c ++ KCLB = (DNEB ++ le32enc c) ++ KCLB from by
      simp [List.append_assoc]]
    rw [List.drop_left' (by simp [DNEB, le32enc])]
    exact List.take_of_length_le (by simp [KCLB])
  rw [if_pos ⟨hf1, hf2⟩]
  simp only [reshape192, List.map_map]
  rfl

/-- The concrete §8 scenario-1 frame: all-zero payload, frame number 1,
checksum 0. -/
def zeroFrame : List Nat := mkFrame 1 (List.replicate 16384 0) 0

/-- A data accumulator whose decode at offset 0 fails (corrupt leading
byte) and which holds a validated frame start at offset 1. -/
def c1DataBuf : List Nat := 255 :: zeroFrame

/-- A status accumulator whose decode at offset 0 fails (bad start marker)
and whose next bare `KCLB` occurrence, at offset 20, is followed by header
bytes that do not satisfy the required equalities. -/
def c1StatusBuf : List Nat :=
  [1, 2, 3, 4] ++ le32enc 0 ++ le32enc 0 ++ le32enc 0 ++ le32enc 0 ++
    KCLB ++ List.replicate 8 9

/-! ## Claim C1 -/

/-- C1 (amended): on the **data** stream the resynchronization after a
failed decode at offset 0 is a validated scan: whenever some offset `i`
with `1 ≤ i` and `i + 21 ≤ len` carries a `KCLB` marker with valid header
equalities, the session advances the accumulator to the smallest validated
offset and increments `sync_losses` by one, and the chosen offset itself
always satisfies the marker and header equalities; when the scan finds no
validated offset it leaves the accumulator and `sync_losses` unchanged.
(The status stream, by contrast, resynchronizes by a bare marker search
without header validation — see the counterexample.) -/
theorem dataResync_validated_scan (buf : List Nat) (sl : Nat)
    (hfail : parseFrameAt buf 0 = none) :
    (findNextSyncPosition buf = 0 → dataResyncStep buf sl = (buf, sl)) ∧
    (∀ i, 1 ≤ i → i + 21 ≤ buf.length → syncCandidate buf i = true →
      1 ≤ findNextSyncPosition buf ∧ findNextSyncPosition buf ≤ i ∧
      syncCandidate buf (findNextSyncPosition buf) = true ∧
      (∀ j, 1 ≤ j → j < findNextSyncPosition buf → syncCandidate buf j = false) ∧
      dataResyncStep buf sl = (buf.drop (findNextSyncPosition buf), sl + 1)) := by
  constructor
  · intro h0
    simp [dataResyncStep, h0]
  · intro i hi1 hi2 hc
    obtain ⟨j, hj⟩ := find?_range'_isSome (p := fun i => syncCandidate buf i)
      (s := 1) (n := buf.length - 21) (i := i) hi1 (by omega) hc
    have hpos : findNextSyncPosition buf = j := by
      unfold findNextSyncPosition
      rw [hj]
    have hmem := List.mem_of_find?_eq_some hj
    have hbounds := List.mem_range'_1.mp hmem
    have hjc : syncCandidate buf j = true := List.find?_some hj
    have hfirst := find?_range'_first hj
    have hji : j ≤ i := by
      by_contra hlt
      exact absurd hc (by simp [hfirst i hi1 (by omega)])
    refine ⟨by omega, by omega, ?_, ?_, ?_⟩
    · rw [hpos]; exact hjc
    · intro k hk1 hk2
      rw [hpos] at hk2
      exact hfirst k hk1 hk2
    · have hj0 : findNextSyncPosition buf > 0 := by omega
      simp only [dataResyncStep]
      rw [if_pos hj0, hpos]

/-- Witness for C1: a concrete accumulator with a corrupt first byte whose
validated scan advances to offset 1. -/
theorem dataResync_validated_scan_witness :
    parseFrameAt c1DataBuf 0 = none ∧
    ((findNextSyncPosition c1DataBuf = 0 → dataResyncStep c1DataBuf 3 = (c1DataBuf, 3)) ∧
    (∀ i, 1 ≤ i → i + 21 ≤ c1DataBuf.length → syncCandidate c1DataBuf i = true →
      1 ≤ findNextSyncPosition c1DataBuf ∧ findNextSyncPosition c1DataBuf ≤ i ∧
      syncCandidate c1DataBuf (findNextSyncPosition c1DataBuf) = true ∧
      (∀ j, 1 ≤ j → j < findNextSyncPosition c1DataBuf →
        syncCandidate c1DataBuf j = false) ∧
      dataResyncStep c1DataBuf 3 = (c1DataBuf.drop (findNextSyncPosition c1DataBuf), 4))) :=
  have h4 : c1DataBuf.take 4 = [255, 75, 67, 76] := by
    have hz : zeroFrame.take 4 = KCLB := mkFrame_take4 1 0 (List.replicate 16384 0)
    have h3 : zeroFrame.take 3 = [75, 67, 76] := by
      have e : (zeroFrame.take 4).take 3 = zeroFrame.take 3 := by
        rw [List.take_take]
        norm_num
      rw [← e, hz]
      rfl
    show (255 :: zeroFrame).take 4 = _
    rw [List.take_succ_cons, h3]
  have hfail : parseFrameAt c1DataBuf 0 = none :=
    parseFrameAt_none_of_badStart c1DataBuf (by rw [h4]; decide)
  ⟨hfail, dataResync_validated_scan c1DataBuf 3 hfail⟩

/-- Counterexample for C1: the status stream violates the claimed validated
scan.  On `c1StatusBuf` the decode at offset 0 fails, yet the session
resynchronizes the accumulator to the next bare `KCLB` (offset 20) whose
following header fails the required equalities (`n_sensors` word is 0, not
64); no `sync_losses` counter exists on the status session. -/
theorem statusResync_not_validated :
    statusParses c1StatusBuf = false ∧
    statusResyncTarget c1StatusBuf = some (KCLB ++ List.replicate 8 9) ∧
    wordAt (KCLB ++ List.replicate 8 9) 12 ≠ 64 := by
  decide

/-! ## Claim C2 -/

/-- C2 (confirmed): every 16 416-byte buffer whose markers at offsets 0,
16404 and 16412 are the expected ASCII values and whose header words equal
the required constants decodes at offset 0 to exactly the payload bytes
`[20, 16404)` regrouped as 4096 little-endian 32-bit words, reshaped to
16 × 256 and sliced to the first 192 channels; and a synthetic frame
encoded with `mkFrame` decodes back to its own payload (round trip), the
channel slice being deterministically the first 192 of 256. -/
theorem parse_frame_roundTrip (buf : List Nat)
    (hlen : buf.length = TOTAL_FRAME_SIZE)
    (hstart : buf.take 4 = KCLB)
    (hps : wordAt buf 8 = PAYLOAD_SIZE)
    (hns : wordAt buf 12 = 64)
    (hsr : wordAt buf 16 = 375)
    (hend : (buf.drop 16404).take 4 = DNEB)
    (hfin : (buf.drop 16412).take 4 = KCLB) :
    parseFrameAt buf 0 = some (reshape192 ((buf.drop 20).take PAYLOAD_SIZE)) ∧
    (∀ n payload c, payload.length = PAYLOAD_SIZE →
      parseFrameAt (mkFrame n payload c) 0 = some (reshape192 payload)) := by
  refine ⟨?_, fun n payload c h => parse_mkFrame n c payload h⟩
  rw [parseFrameAt]
  rw [if_neg (by omega)]
  have hdt : (buf.drop 0).take TOTAL_FRAME_SIZE = buf := by
    rw [List.drop_zero, List.take_of_length_le (le_of_eq hlen)]
  rw [hdt]
  rw [if_neg (by simp [hstart])]
  rw [if_neg (by simp [hps, hns, hsr])]
  rw [if_neg (by
    rw [toWords_length, List.length_take, List.length_drop, hlen]
    decide)]
  have hfootlen : ((buf.drop 16404).take 12).length = 12 := by
    rw [List.length_take, List.length_drop, hlen]
    decide
  rw [if_neg (by rw [hfootlen]; omega)]
  have hf1 : ((buf.drop 16404).take 12).take 4 = DNEB := by
    rw [List.take_take]
    exact hend
  have hf2 : (((buf.drop 16404).take 12).drop 8).take 4 = KCLB := by
    rw [List.drop_take, List.drop_drop]
    rw [List.take_take]
    exact hfin
  rw [if_pos ⟨hf1, hf2⟩]
  simp only [reshape192, List.map_map]
  rfl

/-- Witness for C2: the §8 scenario-1 frame decodes to its all-zero
payload. -/
theorem parse_frame_roundTrip_witness :
    zeroFrame.length = TOTAL_FRAME_SIZE ∧
    zeroFrame.take 4 = KCLB ∧
    wordAt zeroFrame 8 = PAYLOAD_SIZE ∧
    wordAt zeroFrame 12 = 64 ∧
    wordAt zeroFrame 16 = 375 ∧
    (zeroFrame.drop 16404).take 4 = DNEB ∧
    (zeroFrame.drop 16412).take 4 = KCLB ∧
    (parseFrameAt zeroFrame 0 = some (reshape192 ((zeroFrame.drop 20).take PAYLOAD_SIZE)) ∧
     ∀ n payload c, payload.length = PAYLOAD_SIZE →
       parseFrameAt (mkFrame n payload c) 0 = some (reshape192 payload)) :=
  have hp : (List.replicate 16384 (0 : Nat)).length = PAYLOAD_SIZE := by
    rw [List.length_replicate]
    rfl
  have h1 : zeroFrame.length = TOTAL_FRAME_SIZE := mkFrame_total 1 0 _ hp
  have h2 : zeroFrame.take 4 = KCLB := mkFrame_take4 1 0 _
  have h3 : wordAt zeroFrame 8 = PAYLOAD_SIZE := mkFrame_word8 1 0 _
  have h4 : wordAt zeroFrame 12 = 64 := mkFrame_word12 1 0 _
  have h5 : wordAt zeroFrame 16 = 375 := mkFrame_word16 1 0 _
  have h6 : (zeroFrame.drop 16404).take 4 = DNEB := mkFrame_end1 1 0 _ hp
  have h7 : (zeroFrame.drop 16412).take 4 = KCLB := mkFrame_end2 1 0 _ hp
  ⟨h1, h2, h3, h4, h5, h6, h7,
   parse_frame_roundTrip zeroFrame h1 h2 h3 h4 h5 h6 h7⟩

/-! ## Extended-value helper lemmas -/

/-- NaN absorbs addition on the right. -/
theorem fadd_nan_right (a : FVal) : fadd a .nan = .nan := by cases a <;> rfl

/-- NaN absorbs addition on the left. -/
theorem fadd_nan_left (b : FVal) : fadd .nan b = .nan := by cases b <;> rfl

/-- NaN absorbs subtraction on the left. -/
theorem fsub_nan_left (b : FVal) : fsub .nan b = .nan := by
  rw [fsub, fadd_nan_left]

/-- NaN absorbs multiplication on the left. -/
theorem fmul_nan_left (b : FVal) : fmul .nan b = .nan := by cases b <;> rfl

/-- Dividing NaN by any count yields NaN. -/
theorem fdivNat_nan (n : Nat) : fdivNat .nan n = .nan := by cases n <;> rfl

/-- A fold of `fadd` from a NaN accumulator stays NaN. -/
theorem foldl_fadd_nan_acc (xs : List FVal) : xs.foldl fadd .nan = .nan := by
  induction xs with
  | nil => rfl
  | cons x rest ih =>
    rw [List.foldl_cons, fadd_nan_left]
    exact ih

/-- A fold of `fadd` over a list containing NaN is NaN. -/
theorem foldl_fadd_nan (xs : List FVal) (h : FVal.nan ∈ xs) :
    ∀ a : FVal, xs.foldl fadd a = .nan := by
  induction xs with
  | nil => simp at h
  | cons x rest ih =>
    intro a
    rcases List.mem_cons.mp h with hx | hr
    · rw [List.foldl_cons, ← hx, fadd_nan_right]
      exact foldl_fadd_nan_acc rest
    · rw [List.foldl_cons]
      exact ih hr _

/-- The sum of a list containing NaN is NaN. -/
theorem fsum_nan (xs : List FVal) (h : FVal.nan ∈ xs) : fsum xs = .nan :=
  foldl_fadd_nan xs h _

/-- The mean of a list containing NaN is NaN. -/
theorem fmean_nan (xs : List FVal) (h : FVal.nan ∈ xs) : fmean xs = .nan := by
  rw [fmean, fsum_nan xs h, fdivNat_nan]

/-- The variance of a list containing NaN is NaN. -/
theorem fvar_nan (xs : List FVal) (h : FVal.nan ∈ xs) : fvar xs = .nan := by
  rw [fvar]
  apply fmean_nan
  refine List.mem_map.mpr ⟨.nan, h, ?_⟩
  rw [fsub_nan_left, fmul_nan_left]

/-- A fold of `fadd` over finite values from a finite accumulator is finite. -/
theorem foldl_fadd_fin (xs : List FVal) :
    ∀ q : ℚ, (∀ x ∈ xs, ∃ r : ℚ, x = .fin r) →
      ∃ s : ℚ, xs.foldl fadd (.fin q) = .fin s := by
  induction xs with
  | nil => exact fun q _ => ⟨q, rfl⟩
  | cons x rest ih =>
    intro q h
    obtain ⟨r, rfl⟩ := h x (List.mem_cons_self x rest)
    rw [List.foldl_cons]
    exact ih (q + r) (fun y hy => h y (List.mem_cons_of_mem _ hy))

/-- The sum of a list of finite values is finite. -/
theorem fsum_fin (xs : List FVal) (h : ∀ x ∈ xs, ∃ r : ℚ, x = .fin r) :
    ∃ s : ℚ, fsum xs = .fin s :=
  foldl_fadd_fin xs 0 h

/-- The mean of a nonempty list of finite values is finite. -/
theorem fmean_fin (xs : List FVal) (hne : xs ≠ [])
    (h : ∀ x ∈ xs, ∃ r : ℚ, x = .fin r) : ∃ m : ℚ, fmean xs = .fin m := by
  obtain ⟨s, hs⟩ := fsum_fin xs h
  rw [fmean, hs]
  cases hxl : xs.length with
  | zero => exact absurd (List.length_eq_zero.mp hxl) hne
  | succ k => exact ⟨s / (k + 1 : ℚ), by norm_num [fdivNat]⟩

/-- The variance of a nonempty list of finite values is finite. -/
theorem fvar_fin (xs : List FVal) (hne : xs ≠ [])
    (h : ∀ x ∈ xs, ∃ r : ℚ, x = .fin r) : ∃ v : ℚ, fvar xs = .fin v := by
  obtain ⟨m, hm⟩ := fmean_fin xs hne h
  rw [fvar]
  apply fmean_fin
  · simp [hne]
  · intro y hy
    obtain ⟨x, hx, rfl⟩ := List.mem_map.mp hy
    obtain ⟨r, rfl⟩ := h x hx
    rw [hm]
    exact ⟨(r + -m) * (r + -m), rfl⟩

/-! ## Claim C3 -/

/-- C3 (amended): the code computes variance and absolute mean first and
checks NaN/Inf last, so the specification's ordering of the checks is
correct for every payload containing no Inf (in particular a payload
containing NaN scores 0.0, because every comparison with NaN is false),
and an all-zeros payload scores 0.1; Inf-containing payloads diverge — see
the counterexample. -/
theorem quality_order_amended (xs : List FVal) (hinf : xs.any isInf = false) :
    calculateFrameQuality xs = specFrameQuality xs ∧
    ∀ n : Nat, calculateFrameQuality (List.replicate (n + 1) (.fin 0)) = 1 / 10 := by
  constructor
  · by_cases hnan : xs.any isNan = true
    · have hmem : FVal.nan ∈ xs := by
        obtain ⟨x, hx, hpx⟩ := List.any_eq_true.mp hnan
        cases x with
        | fin r => simp [isNan] at hpx
        | inf p => simp [isNan] at hpx
        | nan => exact hx
      have hv := fvar_nan xs hmem
      have hm := fmean_nan xs hmem
      simp only [calculateFrameQuality, specFrameQuality]
      rw [hv, hm]
      simp [flt, fabs, hnan]
    · have hnan' : xs.any isNan = false := by
        cases hb : xs.any isNan with
        | false => rfl
        | true => exact absurd hb hnan
      by_cases hne : xs = []
      · subst hne
        decide
      · have hfin : ∀ x ∈ xs, ∃ r : ℚ, x = .fin r := by
          intro x hx2
          cases x with
          | fin r => exact ⟨r, rfl⟩
          | inf p =>
            exact absurd (by simp [isInf] : isInf (FVal.inf p) = true)
              (by simpa using (List.any_eq_false.mp hinf) _ hx2)
          | nan =>
            exact absurd (by simp [isNan] : isNan FVal.nan = true)
              (by simpa using (List.any_eq_false.mp hnan') _ hx2)
        obtain ⟨v, hv⟩ := fvar_fin xs hne hfin
        obtain ⟨m, hm⟩ := fmean_fin xs hne hfin
        simp only [calculateFrameQuality, specFrameQuality]
        rw [hv, hm]
        simp [flt, fabs, hnan', hinf]
  · intro n
    have hz : ∀ k : Nat, (List.replicate k (FVal.fin 0)).foldl fadd (.fin 0) = .fin 0 := by
      intro k
      induction k with
      | zero => rfl
      | succ k ih =>
        rw [List.replicate_succ, List.foldl_cons]
        rw [show fadd (FVal.fin 0) (.fin 0) = .fin 0 from by norm_num [fadd]]
        exact ih
    have hmean : fmean (List.replicate (n + 1) (.fin 0)) = .fin 0 := by
      rw [fmean, fsum, hz (n + 1), List.length_replicate]
      norm_num [fdivNat]
    have hvar : fvar (List.replicate (n + 1) (.fin 0)) = .fin 0 := by
      rw [fvar, hmean]
      have hmapped : (List.replicate (n + 1) (FVal.fin 0)).map
          (fun x => fmul (fsub x (.fin 0)) (fsub x (.fin 0)))
          = List.replicate (n + 1) (.fin 0) := by
        rw [List.map_replicate]
        norm_num [fsub, fadd, fneg, fmul]
      rw [hmapped]
      exact hmean
    simp only [calculateFrameQuality]
    rw [hvar, hmean]
    norm_num [flt, fabs]

/-- Witness for C3: a single finite sample satisfies the no-Inf hypothesis
and the amended equality. -/
theorem quality_order_amended_witness :
    ([FVal.fin 5].any isInf = false) ∧
    (calculateFrameQuality [FVal.fin 5] = specFrameQuality [FVal.fin 5] ∧
     ∀ n : Nat, calculateFrameQuality (List.replicate (n + 1) (.fin 0)) = 1 / 10) :=
  ⟨by decide, quality_order_amended [FVal.fin 5] (by decide)⟩

/-- Counterexample for C3: a payload containing `+Inf` (with a finite
companion value) has NaN variance — so both variance comparisons are false
— and absolute mean `+Inf`, so the code returns 0.5 at the `|mean| > 1e3`
check before ever reaching the NaN/Inf check, while the specification's
ordering demands 0.0. -/
theorem quality_inf_payload_half :
    calculateFrameQuality [FVal.inf true, FVal.fin 0] = 1 / 2 ∧
    specFrameQuality [FVal.inf true, FVal.fin 0] = 0 ∧
    (1 / 2 : ℚ) ≠ 0 := by
  refine ⟨?_, ?_, by norm_num⟩ <;>
    norm_num [calculateFrameQuality, specFrameQuality, fvar, fmean, fsum, fdivNat,
      fadd, fneg, fsub, fmul, fabs, flt, isNan, isInf]

/-! ## Claim C4 -/

/-- The status sensor-record loop starting at index `i` with `fuel`
iterations left emits `min (min 64 (i + fuel)) ⌊len/4⌋ − i` records. -/
theorem sensorStatusGo_length (svb : List Nat) :
    ∀ (fuel i : Nat),
      (sensorStatusGo svb i fuel).length = min (min 64 (i + fuel)) (svb.length / 4) - i := by
  intro fuel
  induction fuel with
  | zero =>
    intro i
    simp only [sensorStatusGo, List.length_nil]
    omega
  | succ fuel ih =>
    intro i
    simp only [sensorStatusGo]
    split
    · split
      · rw [List.length_cons, ih (i + 1)]
        omega
      · simp only [List.length_nil]
        omega
    · simp only [List.length_nil]
      omega

/-- A status frame with declared payload size 308 and effective status
size 599: it parses (the effective size is never validated) and yields
only 2 sensor records. -/
def c4buf : List Nat :=
  KCLB ++ le32enc 1 ++ le32enc 308 ++ le32enc 64 ++ le32enc 599 ++
    List.replicate 308 7 ++ DNEB ++ le32enc 0 ++ KCLB

/-- A fully regular status frame: declared payload size 600, effective
status size 600. -/
def c4ok : List Nat :=
  KCLB ++ le32enc 2 ++ le32enc 600 ++ le32enc 64 ++ le32enc 600 ++
    List.replicate 600 1 ++ DNEB ++ le32enc 0 ++ KCLB

/-- C4 (amended): a status frame parses only if its start, payload-end and
final markers are correct and `n_sensors` equals 64 — the
`effective_status_size` header field is **not** validated — and a parsing
frame emits `min 64 ((min payload_size 600 − 300) / 4)` sensor records
from payload bytes `[300, 600)`: exactly 64 records only when the declared
payload size is at least 556. -/
theorem statusFrame_parse_characterization (buf : List Nat)
    (h : statusParses buf = true) :
    32 + wordAt buf 8 ≤ buf.length ∧
    buf.take 4 = KCLB ∧
    wordAt buf 12 = 64 ∧
    (buf.drop (20 + wordAt buf 8)).take 4 = DNEB ∧
    (buf.drop (28 + wordAt buf 8)).take 4 = KCLB ∧
    statusRecordCount buf = min 64 ((min (wordAt buf 8) 600 - 300) / 4) ∧
    (556 ≤ wordAt buf 8 → statusRecordCount buf = 64) := by
  cases hs : statusStep buf with
  | needMoreData b =>
    rw [statusParses, hs] at h
    simp at h
  | resync b k =>
    rw [statusParses, hs] at h
    simp at h
  | parsed r rest =>
    have hcount : statusRecordCount buf = r.parsedSensorStatuses.length := by
      rw [statusRecordCount, hs]
    simp only [statusStep] at hs
    split at hs
    · exact absurd hs (by simp)
    · split at hs
      · exact absurd hs (by simp)
      · split at hs
        · rename_i h1 h2 hcond
          obtain ⟨hm1, hn64, hf1, hf2⟩ := hcond
          injection hs with hrec hrest
          have hlen2 : ¬ buf.length < 20 + wordAt buf 8 + 12 := h2
          have hrecords : statusRecordCount buf
              = min 64 ((min (wordAt buf 8) 600 - 300) / 4) := by
            rw [hcount, ← hrec]
            simp only [sensorStatusGo_length]
            have hsvb : (((((buf.take (20 + wordAt buf 8 + 12)).drop 20).take
                (wordAt buf 8)).drop 300).take 300).length
                = min 300 (wordAt buf 8 - 300) := by
              simp only [List.length_take, List.length_drop]
              omega
            rw [hsvb]
            omega
          refine ⟨by omega, ?_, hn64, ?_, ?_, hrecords, ?_⟩
          · rw [← hm1, List.take_take,
              show (4 ⊓ (20 + wordAt buf 8 + 12) : Nat) = 4 from by omega]
          · have h' := hf1
            rw [List.drop_take,
              show 20 + wordAt buf 8 + 12 - (20 + wordAt buf 8) = 12 from by omega,
              List.take_take, show ((4 : Nat) ⊓ 12) = 4 from rfl] at h'
            rw [List.take_take, show ((4 : Nat) ⊓ 12) = 4 from rfl] at h'
            exact h'
          · have h' := hf2
            rw [List.drop_take, List.drop_drop, List.drop_take,
              show 20 + wordAt buf 8 + 12 - (20 + wordAt buf 8 + 8) = 4 from by omega,
              show 20 + wordAt buf 8 + 8 = 28 + wordAt buf 8 from by omega,
              List.take_take, show ((4 : Nat) ⊓ (12 - 8)) = 4 from rfl,
              List.take_take, show ((4 : Nat) ⊓ 4) = 4 from rfl] at h'
            exact h'
          · intro h556
            rw [hrecords]
            omega
        · rename_i h1 h2 hcond
          cases hfind : statusFindSync buf with
          | some i =>
            rw [hfind] at hs
            exact absurd hs (by simp)
          | none =>
            rw [hfind] at hs
            exact absurd hs (by simp)

set_option maxRecDepth 8000 in
/-- Witness for C4: the fully regular status frame parses and emits
exactly 64 records. -/
theorem statusFrame_parse_characterization_witness :
    statusParses c4ok = true ∧
    (32 + wordAt c4ok 8 ≤ c4ok.length ∧
     c4ok.take 4 = KCLB ∧
     wordAt c4ok 12 = 64 ∧
     (c4ok.drop (20 + wordAt c4ok 8)).take 4 = DNEB ∧
     (c4ok.drop (28 + wordAt c4ok 8)).take 4 = KCLB ∧
     statusRecordCount c4ok = min 64 ((min (wordAt c4ok 8) 600 - 300) / 4) ∧
     (556 ≤ wordAt c4ok 8 → statusRecordCount c4ok = 64)) :=
  ⟨by decide, statusFrame_parse_characterization c4ok (by decide)⟩

set_option maxRecDepth 8000 in
/-- Counterexample for C4: a status frame whose `effective_status_size`
header word is 599 (not 600) and whose declared payload holds only two
full sensor records still parses, and emits 2 records, not 64. -/
theorem statusFrame_eff_unchecked :
    statusParses c4buf = true ∧
    wordAt c4buf 16 = 599 ∧
    statusRecordCount c4buf = 2 ∧
    (2 : Nat) ≠ 64 := by
  decide

/-! ## Claim C5 -/

/-- C5 (amended): the fan-out into the main data queue and the prediction
queue is drop-**newest** above a soft threshold, not drop-oldest-on-full:
a parsed frame is appended only while the data queue holds fewer than 900
elements (prediction: fewer than 190); otherwise the queue is left
unchanged and the new frame is the one discarded.  The `except queue.Full`
drop-oldest handler is unreachable, because `put_nowait` is only attempted
below the threshold, which is below the capacity. -/
theorem queuePut_drop_newest {α : Type} (q : List α) (f : α) :
    dataQueuePut q f = (if q.length < 900 then q ++ [f] else q) ∧
    predQueuePut q f = (if q.length < 190 then q ++ [f] else q) := by
  constructor
  · by_cases h : q.length < 900
    · rw [dataQueuePut, if_pos h, if_pos h]
      rw [putNowait, if_pos (by omega)]
    · rw [dataQueuePut, if_neg h, if_neg h]
  · by_cases h : q.length < 190
    · rw [predQueuePut, if_pos h, if_pos h]
      rw [putNowait, if_pos (by omega)]
    · rw [predQueuePut, if_neg h, if_neg h]

/-- Witness for C5: at length 0 both queues append the new element. -/
theorem queuePut_drop_newest_witness :
    dataQueuePut ([] : List Nat) 7 = (if List.length ([] : List Nat) < 900 then [] ++ [7] else []) ∧
    predQueuePut ([] : List Nat) 7 = (if List.length ([] : List Nat) < 190 then [] ++ [7] else []) :=
  queuePut_drop_newest [] 7

/-- Counterexample for C5: with the data queue at its 900-element threshold
(and at the full 1000), and the prediction queue at 190 (and at the full
200), the newly parsed frame is the one discarded — the queue is unchanged
and the new frame is absent — contradicting drop-oldest-on-full. -/
theorem queuePut_drops_new_frame :
    dataQueuePut (List.replicate 900 0) 7 = List.replicate 900 0 ∧
    7 ∉ dataQueuePut (List.replicate 900 0) 7 ∧
    dataQueuePut (List.replicate 1000 0) 7 = List.replicate 1000 0 ∧
    predQueuePut (List.replicate 190 0) 7 = List.replicate 190 0 ∧
    predQueuePut (List.replicate 200 0) 7 = List.replicate 200 0 := by
  refine ⟨?_, ?_, ?_, ?_, ?_⟩
  · rw [dataQueuePut, if_neg (by rw [List.length_replicate]; omega)]
  · rw [dataQueuePut, if_neg (by rw [List.length_replicate]; omega)]
    simp only [List.mem_replicate]
    omega
  · rw [dataQueuePut, if_neg (by rw [List.length_replicate]; omega)]
  · rw [predQueuePut, if_neg (by rw [List.length_replicate]; omega)]
  · rw [predQueuePut, if_neg (by rw [List.length_replicate]; omega)]

/-! ## Claim C6 -/

/-- C6 (amended): when the configured prediction duration has elapsed at
the moment a frame is distributed (collection still marked active), the
in-flight frame is **not** delivered to the prediction queue — the queue is
returned unchanged — and `prediction_active` is cleared. -/
theorem predictionDeadline_drops_frame {α : Type} (elapsed duration : ℚ)
    (q : List α) (f : α) (h : duration < elapsed) :
    predictionDispatch true elapsed duration q f = (false, q) := by
  rw [predictionDispatch, if_pos rfl, if_neg (by exact not_le.mpr h)]

/-- Witness for C6: deadline 1 s, elapsed 2 s, empty queue. -/
theorem predictionDeadline_drops_frame_witness :
    (1 : ℚ) < 2 ∧ predictionDispatch true 2 1 ([] : List Nat) 7 = (false, []) :=
  ⟨by norm_num, predictionDeadline_drops_frame 2 1 [] 7 (by norm_num)⟩

/-- Counterexample for C6: with collection active and the deadline passed,
the in-flight frame 7 is absent from the resulting queue (the claim says it
is still delivered), though `prediction_active` is indeed cleared. -/
theorem predictionDeadline_frame_lost :
    predictionDispatch true 2 1 ([] : List Nat) 7 = (false, []) ∧
    7 ∉ (predictionDispatch true 2 1 ([] : List Nat) 7).2 := by
  have h : predictionDispatch true 2 1 ([] : List Nat) 7 = (false, []) := by
    rw [predictionDispatch, if_pos rfl, if_neg (by norm_num)]
  exact ⟨h, by rw [h]; simp⟩

/-! ## Claim C7 -/

/-- C7 (amended): none of the three read operations consults the lifecycle
state — each returns the same result in every state, including
`Disconnected` and `Error` — and each returns the not-ready result exactly
when its backing store is empty (monitor and prediction queues) or
under-populated (raw buffer); residual frames left in the queues are
returned even in `Disconnected`/`Error`. -/
theorem reads_ignore_lifecycle (s : DataSessionView) (st : ConnState)
    (maxSamples n : Nat) :
    getMonitorData { s with state := st } maxSamples = getMonitorData s maxSamples ∧
    getLatestBufferData { s with state := st } n = getLatestBufferData s n ∧
    (getPredictionData { s with state := st }).1 = (getPredictionData s).1 ∧
    (s.monitorQueue = [] → getMonitorData s maxSamples = none) ∧
    (s.rawBuffer.length < n → getLatestBufferData s n = none) ∧
    (s.predictionQueue = [] → (getPredictionData s).1 = none) := by
  refine ⟨rfl, rfl, rfl, ?_, ?_, ?_⟩
  · intro h
    rw [getMonitorData, h]
  · intro h
    rw [getLatestBufferData, if_pos h]
  · intro h
    rw [getPredictionData, h]
    rfl

/-- A session halted in the `error` state with one residual monitor frame. -/
def c7sessError : DataSessionView :=
  { state := .error, monitorQueue := [[[1, 2]]], rawBuffer := [], predictionQueue := [] }

/-- The same session as `c7sessError` but still streaming. -/
def c7sessStreaming : DataSessionView :=
  { state := .streaming, monitorQueue := [[[1, 2]]], rawBuffer := [], predictionQueue := [] }

/-- Witness for C7: a concrete one-frame session read identically in the
`error` state. -/
theorem reads_ignore_lifecycle_witness :
    getMonitorData { c7sessStreaming with state := .error } 100
      = getMonitorData c7sessStreaming 100 ∧
    getLatestBufferData { c7sessStreaming with state := .error } 5
      = getLatestBufferData c7sessStreaming 5 ∧
    (getPredictionData { c7sessStreaming with state := .error }).1
      = (getPredictionData c7sessStreaming).1 ∧
    (c7sessStreaming.monitorQueue = [] → getMonitorData c7sessStreaming 100 = none) ∧
    (c7sessStreaming.rawBuffer.length < 5 → getLatestBufferData c7sessStreaming 5 = none) ∧
    (c7sessStreaming.predictionQueue = [] → (getPredictionData c7sessStreaming).1 = none) :=
  reads_ignore_lifecycle c7sessStreaming .error 100 5

/-- Counterexample for C7: a session in the `Error` state with one residual
monitor frame returns that frame's rows from the monitor read — frame data,
not a not-ready result — contradicting the claim that every read in
`Disconnected`/`Error` returns a not-ready/lifecycle error. -/
theorem error_state_read_returns_data :
    c7sessError.state = ConnState.error ∧
    getMonitorData c7sessError 100 = some [[1, 2]] :=
  ⟨rfl, by decide⟩

/-! ## Claim C8 -/

/-- Unfold one live iteration of the receiver loop. -/
theorem runReceiver_live_cons (st : StreamState) (p : RecvResult) (rest : List RecvResult)
    (h : receiverLive st = true) :
    runReceiver (p :: rest) st =
      (match pollStep st p with
       | (st2, true) => (finishReceiver st2, rest)
       | (st2, false) => runReceiver rest st2) := by
  rw [runReceiver]
  rw [if_pos h]

/-- Feeding `n` consecutive empty reads to a live receiver whose empty
counter stays at or below 50 just accumulates the counter. -/
theorem run_empties : ∀ (n : Nat) (st : StreamState) (rest : List RecvResult),
    receiverLive st = true → st.consecutiveEmpty + n ≤ 50 →
    runReceiver (List.replicate n .emptyRead ++ rest) st
      = runReceiver rest { st with consecutiveEmpty := st.consecutiveEmpty + n } := by
  intro n
  induction n with
  | zero =>
    intro st rest hlive hbound
    simp only [List.replicate, List.nil_append, Nat.add_zero]
  | succ n ih =>
    intro st rest hlive hbound
    rw [List.replicate_succ, List.cons_append]
    rw [runReceiver_live_cons _ _ _ hlive]
    simp only [pollStep]
    rw [if_neg (by omega)]
    show runReceiver (List.replicate n .emptyRead ++ rest)
        { st with consecutiveEmpty := st.consecutiveEmpty + 1 } = _
    rw [ih { st with consecutiveEmpty := st.consecutiveEmpty + 1 } rest hlive (by simp; omega)]
    have harith : st.consecutiveEmpty + 1 + n = st.consecutiveEmpty + (n + 1) := by omega
    simp only [harith]

/-- After 50 accumulated empty reads, the 51st empty read transitions the
session to `error`, the loop breaks, and the trailing transition to
`disconnected` runs; no later poll is consumed. -/
theorem empties_51_exits (extra : List RecvResult) :
    runReceiver (List.replicate 51 .emptyRead ++ extra) initStreaming
      = ({ initStreaming with
            connState := .disconnected
            stateLog := [.error, .disconnected]
            consecutiveEmpty := 51 }, extra) := by
  have hsplit : List.replicate 51 RecvResult.emptyRead ++ extra
      = List.replicate 50 .emptyRead ++ (.emptyRead :: extra) := by
    rw [List.replicate_succ', List.append_assoc]
    rfl
  rw [hsplit]
  rw [run_empties 50 initStreaming (.emptyRead :: extra) rfl (by norm_num [initStreaming])]
  rw [runReceiver_live_cons _ _ _ (by rfl)]
  simp only [pollStep]
  rw [if_pos (by norm_num [initStreaming])]
  rfl

/-- C8 (amended): the session transitions to `Error` only on the **51st**
consecutive empty read (the source checks `> 50`), and the receiver loop
then exits, which immediately performs a further transition to
`Disconnected`; the `running` flag stays true (the processing thread is
not stopped) and the socket is not closed; the dead loop consumes no
further polls, so nothing more is enqueued. -/
theorem emptyReads_error_transition (extra : List RecvResult) :
    runReceiver (List.replicate 51 .emptyRead ++ extra) initStreaming
      = ({ initStreaming with
            connState := .disconnected
            stateLog := [.error, .disconnected]
            consecutiveEmpty := 51 }, extra) ∧
    (runReceiver (List.replicate 51 .emptyRead) initStreaming).1.running = true ∧
    (runReceiver (List.replicate 51 .emptyRead) initStreaming).1.socketOpen = true ∧
    (runReceiver (List.replicate 51 .emptyRead) initStreaming).1.totalFramesParsed = 0 := by
  have h0 := empties_51_exits []
  rw [List.append_nil] at h0
  exact ⟨empties_51_exits extra, by rw [h0]; rfl, by rw [h0]; rfl, by rw [h0]; rfl⟩

/-- Witness for C8: the amended statement at the empty trailing poll list. -/
theorem emptyReads_error_transition_witness :
    runReceiver (List.replicate 51 .emptyRead ++ []) initStreaming
      = ({ initStreaming with
            connState := .disconnected
            stateLog := [.error, .disconnected]
            consecutiveEmpty := 51 }, []) ∧
    (runReceiver (List.replicate 51 .emptyRead) initStreaming).1.running = true ∧
    (runReceiver (List.replicate 51 .emptyRead) initStreaming).1.socketOpen = true ∧
    (runReceiver (List.replicate 51 .emptyRead) initStreaming).1.totalFramesParsed = 0 :=
  emptyReads_error_transition []

/-- Counterexample for C8: after exactly fifty consecutive empty reads the
session is still `Streaming` and no `Error` transition was notified — the
claimed count of fifty is one short — and even after the 51st empty read
the socket is still open and `running` is still true, so the threads are
not stopped and the socket is not closed. -/
theorem fifty_empty_reads_still_streaming :
    (runReceiver (List.replicate 50 .emptyRead) initStreaming).1.connState
      = ConnState.streaming ∧
    ConnState.error ∉ (runReceiver (List.replicate 50 .emptyRead) initStreaming).1.stateLog ∧
    (runReceiver (List.replicate 51 .emptyRead) initStreaming).1.connState
      = ConnState.disconnected ∧
    (runReceiver (List.replicate 51 .emptyRead) initStreaming).1.socketOpen = true ∧
    (runReceiver (List.replicate 51 .emptyRead) initStreaming).1.running = true := by
  have h50 := run_empties 50 initStreaming [] rfl (by norm_num [initStreaming])
  rw [List.append_nil] at h50
  have h51 := empties_51_exits []
  rw [List.append_nil] at h51
  refine ⟨?_, ?_, ?_, ?_, ?_⟩
  · rw [h50, runReceiver, if_pos (by rfl)]
    rfl
  · rw [h50, runReceiver, if_pos (by rfl)]
    simp [initStreaming]
  · rw [h51]
  · rw [h51]
    rfl
  · rw [h51]
    rfl

/-! ## Claim C9 -/

/-- C9 (amended): a command message is framed as a little-endian u32 length
word equal to the UTF-8 byte length of the pipe-delimited payload, followed
by that payload; the concrete example
`send("Sensor", "Activate Sensor", "5")` produces the payload
`Sensor|Activate Sensor|5`, whose UTF-8 encoding is **24** bytes, so the
wire bytes are `18 00 00 00` followed by that ASCII text. -/
theorem sendCommand_framing (component command p1 p2 : String)
    (h : (utf8Encode (commandPayload component command p1 p2)).length < 4294967296) :
    le32 ((sendCommandBytes component command p1 p2).take 4)
      = (utf8Encode (commandPayload component command p1 p2)).length ∧
    (sendCommandBytes component command p1 p2).drop 4
      = utf8Encode (commandPayload component command p1 p2) ∧
    sendCommandBytes "Sensor" "Activate Sensor" "5" ""
      = [24, 0, 0, 0] ++ utf8Encode "Sensor|Activate Sensor|5" := by
  refine ⟨?_, ?_, by decide⟩
  · rw [sendCommandBytes]
    rw [List.take_left' (show (le32enc
      (utf8Encode (commandPayload component command p1 p2)).length).length = 4 from rfl)]
    exact le32_le32enc _ h
  · rw [sendCommandBytes]
    rw [List.drop_left' (show (le32enc
      (utf8Encode (commandPayload component command p1 p2)).length).length = 4 from rfl)]

/-- Witness for C9: the framing equalities at the spec's concrete command. -/
theorem sendCommand_framing_witness :
    (utf8Encode (commandPayload "Sensor" "Activate Sensor" "5" "")).length < 4294967296 ∧
    (le32 ((sendCommandBytes "Sensor" "Activate Sensor" "5" "").take 4)
      = (utf8Encode (commandPayload "Sensor" "Activate Sensor" "5" "")).length ∧
     (sendCommandBytes "Sensor" "Activate Sensor" "5" "").drop 4
      = utf8Encode (commandPayload "Sensor" "Activate Sensor" "5" "") ∧
     sendCommandBytes "Sensor" "Activate Sensor" "5" ""
      = [24, 0, 0, 0] ++ utf8Encode "Sensor|Activate Sensor|5") :=
  ⟨by decide, sendCommand_framing "Sensor" "Activate Sensor" "5" "" (by decide)⟩

/-- Counterexample for C9: the payload `Sensor|Activate Sensor|5` is 24
UTF-8 bytes, not 19, and the length-prefix bytes are `18 00 00 00`
(24 little-endian), not `19 00 00 00` (= 25). -/
theorem commander_example_is_24_bytes :
    (utf8Encode (commandPayload "Sensor" "Activate Sensor" "5" "")).length = 24 ∧
    (24 : Nat) ≠ 19 ∧
    (sendCommandBytes "Sensor" "Activate Sensor" "5" "").take 4 = [24, 0, 0, 0] ∧
    [(24 : Nat), 0, 0, 0] ≠ [25, 0, 0, 0] := by
  decide

/-! ## Claim C10 -/

/-- A decode attempt after a prefix list inspects only the suffix. -/
theorem parseFrameAt_shift (f rest : List Nat) (p : Nat) :
    parseFrameAt (f ++ rest) (f.length + p) = parseFrameAt rest p := by
  rw [parseFrameAt, parseFrameAt]
  rw [List.length_append, List.drop_append]
  refine if_congr ?_ rfl rfl
  constructor <;> (intro hx; omega)

/-- A decode attempt at offset 0 sees only the first `TOTAL_FRAME_SIZE`
bytes: trailing data does not change the result. -/
theorem parseFrameAt_append_left (f rest : List Nat)
    (hf : f.length = TOTAL_FRAME_SIZE) :
    parseFrameAt (f ++ rest) 0 = parseFrameAt f 0 := by
  rw [parseFrameAt, parseFrameAt]
  rw [List.drop_zero, List.drop_zero, List.length_append]
  rw [List.take_append_of_le_length (by omega)]
  refine if_congr ?_ rfl rfl
  constructor <;> (intro hx; omega)

/-- One scan step over a decodable frame: count it and jump a full frame. -/
theorem scanFrames_step_some (allData : List Nat) (pos : Nat) (d : List (List Nat))
    (h : pos < allData.length - TOTAL_FRAME_SIZE)
    (hp : parseFrameAt allData pos = some d) :
    scanFrames allData pos = 1 + scanFrames allData (pos + TOTAL_FRAME_SIZE) := by
  conv_lhs => rw [scanFrames]
  rw [dif_pos h, hp]

/-- The scan stops as soon as `pos` is not strictly below
`length − TOTAL_FRAME_SIZE`. -/
theorem scanFrames_stop (allData : List Nat) (pos : Nat)
    (h : ¬ pos < allData.length - TOTAL_FRAME_SIZE) :
    scanFrames allData pos = 0 := by
  unfold scanFrames
  rw [dif_neg h]

/-- The scan over exactly three back-to-back full frames, the first two
decodable, counts 2: the loop bound `pos < len − TOTAL_FRAME_SIZE` is
strict, so the frame starting at `len − TOTAL_FRAME_SIZE` is never tried. -/
theorem scan_three (f1 f2 f3 : List Nat)
    (h1 : f1.length = TOTAL_FRAME_SIZE) (h2 : f2.length = TOTAL_FRAME_SIZE)
    (h3 : f3.length = TOTAL_FRAME_SIZE)
    (d1 d2 : List (List Nat))
    (hp1 : parseFrameAt f1 0 = some d1) (hp2 : parseFrameAt f2 0 = some d2) :
    testFramesFound (f1 ++ f2 ++ f3) = 2 := by
  have hlen : (f1 ++ f2 ++ f3).length = 3 * TOTAL_FRAME_SIZE := by
    simp only [List.length_append, h1, h2, h3]
    omega
  have hassoc : f1 ++ f2 ++ f3 = f1 ++ (f2 ++ f3) := by rw [List.append_assoc]
  have hp0 : parseFrameAt (f1 ++ f2 ++ f3) 0 = some d1 := by
    rw [hassoc, parseFrameAt_append_left f1 (f2 ++ f3) h1, hp1]
  have hpT : parseFrameAt (f1 ++ f2 ++ f3) TOTAL_FRAME_SIZE = some d2 := by
    rw [hassoc]
    have hsh := parseFrameAt_shift f1 (f2 ++ f3) 0
    rw [Nat.add_zero, h1] at hsh
    rw [hsh, parseFrameAt_append_left f2 f3 h2, hp2]
  have hT : (0 : Nat) < TOTAL_FRAME_SIZE := by norm_num [TOTAL_FRAME_SIZE]
  have hc1 : 0 < (f1 ++ f2 ++ f3).length - TOTAL_FRAME_SIZE := by omega
  have hc2 : TOTAL_FRAME_SIZE < (f1 ++ f2 ++ f3).length - TOTAL_FRAME_SIZE := by omega
  have hc3 : ¬ (TOTAL_FRAME_SIZE + TOTAL_FRAME_SIZE
      < (f1 ++ f2 ++ f3).length - TOTAL_FRAME_SIZE) := by omega
  rw [testFramesFound, if_pos (by omega)]
  rw [scanFrames_step_some _ _ d1 hc1 hp0]
  rw [Nat.zero_add]
  rw [scanFrames_step_some _ _ d2 hc2 hpT]
  rw [scanFrames_stop _ _ hc3]

/-- C10 (amended): the test-path scan decodes frames only at start offsets
strictly below `capture length − TOTAL_FRAME_SIZE`, so a frame ending flush
with the end of the capture is never counted: a capture of exactly three
back-to-back valid frames yields `frames_found = 2`, not 3. -/
theorem testScan_three_frames (f1 f2 f3 : List Nat)
    (h1 : f1.length = TOTAL_FRAME_SIZE) (h2 : f2.length = TOTAL_FRAME_SIZE)
    (h3 : f3.length = TOTAL_FRAME_SIZE)
    (d1 d2 d3 : List (List Nat))
    (hp1 : parseFrameAt f1 0 = some d1) (hp2 : parseFrameAt f2 0 = some d2)
    (hp3 : parseFrameAt f3 0 = some d3) :
    testFramesFound (f1 ++ f2 ++ f3) = 2 :=
  scan_three f1 f2 f3 h1 h2 h3 d1 d2 hp1 hp2

/-- Witness for C10: three copies of the §8 scenario-1 frame. -/
theorem testScan_three_frames_witness :
    zeroFrame.length = TOTAL_FRAME_SIZE ∧
    parseFrameAt zeroFrame 0 = some (reshape192 (List.replicate 16384 0)) ∧
    testFramesFound (zeroFrame ++ zeroFrame ++ zeroFrame) = 2 :=
  have hp : (List.replicate 16384 (0 : Nat)).length = PAYLOAD_SIZE := by
    rw [List.length_replicate]
    rfl
  have hl : zeroFrame.length = TOTAL_FRAME_SIZE := mkFrame_total 1 0 _ hp
  have hd : parseFrameAt zeroFrame 0 = some (reshape192 (List.replicate 16384 0)) :=
    parse_mkFrame 1 0 _ hp
  ⟨hl, hd, testScan_three_frames zeroFrame zeroFrame zeroFrame hl hl hl _ _ _ hd hd hd⟩

/-- Counterexample for C10: the concrete capture of exactly three valid
back-to-back frames yields `frames_found = 2`, not the claimed 3. -/
theorem three_valid_frames_count_two :
    testFramesFound (zeroFrame ++ zeroFrame ++ zeroFrame) = 2 ∧ (2 : Nat) ≠ 3 :=
  have hp : (List.replicate 16384 (0 : Nat)).length = PAYLOAD_SIZE := by
    rw [List.length_replicate]
    rfl
  have hl : zeroFrame.length = TOTAL_FRAME_SIZE := mkFrame_total 1 0 _ hp
  have hd : parseFrameAt zeroFrame 0 = some (reshape192 (List.replicate 16384 0)) :=
    parse_mkFrame 1 0 _ hp
  ⟨scan_three zeroFrame zeroFrame zeroFrame hl hl hl _ _ hd hd, by decide⟩

end MEG
